import Mathlib


/-!
Shallow embedding of the SplaTAM NeRFCapture manifest Writer
(`nerfcapture2dataset.py`, `create_dataset_from_files`) and Reader
(`gradslam_nerfcapture.py`, `NeRFCaptureDataset`): the manifest data model,
path and string manipulation, depth quantization, pose conversion and the
overwrite-confirmation control flow, together with theorems settling the
specification's claims about them.
-/

/-- Character of a single decimal digit `d < 10` (codepoint `48 + d`), as in
Python's decimal rendering of integers. -/
def digitChar (d : ℕ) : Char := Char.ofNat (48 + d)

/-- Decimal digits of `n`, least significant first, with explicit fuel;
`fuel > n` is always enough because `n / 10` shrinks at every step. -/
def toDigitsRev (fuel n : ℕ) : List Char :=
  match fuel with
  | 0 => []
  | fuel + 1 =>
    if n < 10 then [digitChar n] else digitChar (n % 10) :: toDigitsRev fuel (n / 10)

/-- Decimal rendering of a natural number, modelling Python's f-string
rendering of the nonnegative frame index, as in `f"rgb/{frame_idx}.png"`. -/
def natRepr (n : ℕ) : String := ⟨(toDigitsRev (n + 1) n).reverse⟩

/-- Value of a digit list, least significant character first; the decoder used
to prove `natRepr` injective. -/
def valRev : List Char → ℕ
  | [] => 0
  | c :: cs => (c.toNat - 48) + 10 * valRev cs

/-- Python `str.lower`, modelled on the ASCII letters the program handles. -/
def pyLower (s : String) : String := ⟨s.data.map Char.toLower⟩

/-- The whitespace characters Python `str.strip` removes. -/
def isPySpace (c : Char) : Bool :=
  c == ' ' || c == '\t' || c == '\n' || c == '\r' || c == '\x0b' || c == '\x0c'

/-- Python `str.strip`: remove leading and trailing whitespace. -/
def pyStrip (s : String) : String :=
  ⟨((s.data.dropWhile isPySpace).reverse.dropWhile isPySpace).reverse⟩

/-- Fuelled core of Python `str.replace`: scan left to right, replacing each
non-overlapping occurrence of `pat` by `rep`; fuel bounds the number of scan
steps, and the subject's length is always enough fuel. -/
def replaceFuel (pat rep : List Char) : ℕ → List Char → List Char
  | _, [] => []
  | 0, s => s
  | fuel + 1, c :: rest =>
    if pat ≠ [] ∧ pat.isPrefixOf (c :: rest) then
      rep ++ replaceFuel pat rep fuel (List.drop (pat.length - 1) rest)
    else c :: replaceFuel pat rep fuel rest

/-- Python `str.replace` on strings, as in the Reader's depth-path fallback
`frame_metadata["file_path"].replace("rgb", "depth")` (line 114). -/
def pyReplace (s pat rep : String) : String :=
  ⟨replaceFuel pat.data rep.data s.data.length s.data⟩

/-- Final path component: everything after the last slash. -/
def lastComponent (s : List Char) : List Char :=
  (s.reverse.takeWhile (fun c => c != '/')).reverse

/-- Python `pathlib.Path(x).stem`: the final component without its last
extension; a dot in first position does not start an extension. -/
def stemOf (s : List Char) : List Char :=
  let comp := lastComponent s
  match comp.reverse.dropWhile (fun c => c != '.') with
  | [] => comp
  | _ :: rest => if rest.isEmpty then comp else rest.reverse

/-- Python `int` on a decimal digit string, accumulator style; models
`int(Path(x).stem)` for the numeric stems the natural sort is given. -/
def pyIntOfDigits : List Char → ℕ → ℕ
  | [], acc => acc
  | c :: cs, acc => pyIntOfDigits cs (acc * 10 + (c.toNat - 48))

/-- The sort key of line 48: `int(Path(x).stem)`. -/
def stemKey (s : String) : ℕ := pyIntOfDigits (stemOf s.data) 0

/-- Model of `natsorted(names, key=lambda x: int(Path(x).stem))` (line 48):
a stable sort by the integer stem key. -/
def natsortByStem (names : List String) : List String :=
  names.insertionSort (fun a b => stemKey a ≤ stemKey b)

/-- Pose matrices: 4 × 4 rational matrices stand in for the row-major float
matrices of the program. -/
abbrev Mat4 : Type := Matrix (Fin 4) (Fin 4) ℚ

/-- One entry of the manifest's `frames` list. -/
structure FrameRecord where
  transform_matrix : Mat4
  file_path : String
  depth_path : Option String

/-- The `transforms.json` manifest: shared intrinsics, the depth-scale field
(optional for the Reader), and the frame records in stored order. -/
structure CaptureManifest where
  fl_x : ℚ
  fl_y : ℚ
  cx : ℚ
  cy : ℚ
  w : ℕ
  h : ℕ
  integer_depth_scale : Option ℚ
  frames : List FrameRecord

/-- The fixed conversion matrix `P = diag(1, -1, -1, 1)` built in
`get_filepaths` (lines 94-101). -/
def Pmat : Mat4 := !![1, 0, 0, 0; 0, -1, 0, 0; 0, 0, -1, 0; 0, 0, 0, 1]

/-- The per-frame pose conversion `P @ c2w @ P.T` of line 119. -/
def convertPose (c2w : Mat4) : Mat4 := Pmat * c2w * Pmat.transpose

/-- Lines 14-15: `{frame["file_path"]: index for index, frame in
enumerate(frames)}`, the Python dict modelled as its insertion-ordered
key/value pairs. -/
def create_filepath_index_mapping (frames : List FrameRecord) : List (String × ℕ) :=
  frames.enum.map (fun p => (p.2.file_path, p.1))

/-- Lookup in the dict model; as in a Python dict a later binding of the same
key wins, hence the search from the end. -/
def dictFind (m : List (String × ℕ)) (k : String) : Option ℕ :=
  (m.reverse.find? (fun p => p.1 == k)).map (fun p => p.2)

/-- Depth path of one frame (lines 109-115): `depth_path` under the capture
root when the field is present, else the `"rgb"` → `"depth"` substring
replacement applied to the whole `file_path`. -/
def frameDepthPath (base : String) (fr : FrameRecord) : String :=
  match fr.depth_path with
  | some dp => base ++ "/" ++ dp
  | none => base ++ "/" ++ pyReplace fr.file_path "rgb" "depth"

/-- The state the Reader exposes after `__init__`, `get_filepaths` and
`load_poses`. -/
structure ReaderState where
  frames_metadata : List FrameRecord
  filepath_index_mapping : List (String × ℕ)
  image_names : List String
  png_depth_scale : ℚ
  color_paths : List String
  depth_paths : List String
  poses : List Mat4

/-- The Reader load: `NeRFCaptureDataset.__init__` followed by
`get_filepaths` and `load_poses`, on an already parsed manifest. The path,
index and pose sequences are built by iterating `frames_metadata` in stored
manifest order (lines 104-120); only `image_names` is natural-sorted
(line 48). -/
def loadReader (basePath : String) (m : CaptureManifest) : ReaderState where
  frames_metadata := m.frames
  filepath_index_mapping := create_filepath_index_mapping m.frames
  image_names := natsortByStem (m.frames.map (fun fr => fr.file_path))
  png_depth_scale :=
    match m.integer_depth_scale with
    | some ids => 1 / ids
    | none => 6553.5
  color_paths := m.frames.map (fun fr => basePath ++ "/" ++ fr.file_path)
  depth_paths := m.frames.map (frameDepthPath basePath)
  poses := m.frames.map (fun fr => convertPose fr.transform_matrix)

/-- Per-frame raw inputs the Writer loop looks at: whether the color and depth
source files exist, and the successfully parsed pose file if any. -/
structure FrameSource where
  colorExists : Bool
  depthExists : Bool
  pose : Option Mat4

/-- The color asset name `f"rgb/{frame_idx}.png"` (line 149). -/
def rgbName (i : ℕ) : String := "rgb/" ++ natRepr i ++ ".png"

/-- The depth asset name `f"depth/{frame_idx}.png"` (line 159). -/
def depthName (i : ℕ) : String := "depth/" ++ natRepr i ++ ".png"

/-- The frame record the Writer appends for frame index `i` (lines 147-159):
the loaded pose or the identity fallback, the color path, and the depth path
only when the depth source existed. -/
def mkFrameRecord (i : ℕ) (src : FrameSource) : FrameRecord where
  transform_matrix := src.pose.getD 1
  file_path := rgbName i
  depth_path := if src.depthExists then some (depthName i) else none

/-- The Writer frame loop (lines 74-161) from frame index `k` on: a frame
whose color source is missing is skipped, every other frame appends its
record. -/
def buildFrames (k : ℕ) : List FrameSource → List FrameRecord
  | [] => []
  | src :: rest =>
    if src.colorExists then mkFrameRecord k src :: buildFrames (k + 1) rest
    else buildFrames (k + 1) rest

/-- The parts of `data_config` the claims depend on. -/
structure WriterConfig where
  depth_scale : ℚ
  fl_x : ℚ
  fl_y : ℚ
  cx : ℚ
  cy : ℚ
  width : ℕ
  height : ℕ
  sources : List FrameSource

/-- The manifest the Writer serializes (lines 63-72 and 147-161): intrinsics,
`integer_depth_scale = float(depth_scale) / 65535.0`, and the surviving
frames in processing order. -/
def writerManifest (cfg : WriterConfig) : CaptureManifest where
  fl_x := cfg.fl_x
  fl_y := cfg.fl_y
  cx := cfg.cx
  cy := cfg.cy
  w := cfg.width
  h := cfg.height
  integer_depth_scale := some (cfg.depth_scale / 65535)
  frames := buildFrames 0 cfg.sources

/-- Filesystem effects of one Writer run, in program order. -/
inductive FsAction where
  | removeTree : FsAction
  | makeDir : String → FsAction
  | writeImage : String → FsAction
  | writeManifestFile : FsAction
  deriving DecidableEq

/-- How a Writer run ends: `sys.exit` with a status, or normal completion. -/
inductive RunResult where
  | exited : ℕ → RunResult
  | completed : RunResult
  deriving DecidableEq

/-- The overwrite prompt check of line 34: the run continues iff
`(reply.lower().strip() + "y")[:1] == "y"`. -/
def pyConfirm (reply : String) : Bool :=
  ((pyStrip (pyLower reply)).data ++ ['y']).take 1 == ['y']

/-- Image writes of the frame loop from index `k` on: a color image per kept
frame (line 101) and a depth image when the depth source exists (line 125). -/
def frameActions (k : ℕ) : List FrameSource → List FsAction
  | [] => []
  | src :: rest =>
    if src.colorExists then
      (FsAction.writeImage (rgbName k) ::
        if src.depthExists then [FsAction.writeImage (depthName k)] else []) ++
        frameActions (k + 1) rest
    else frameActions (k + 1) rest

/-- Directory creation of lines 42-46. -/
def mkdirActions (savePath : String) : List FsAction :=
  [FsAction.makeDir savePath, FsAction.makeDir (savePath ++ "/rgb"),
    FsAction.makeDir (savePath ++ "/depth")]

/-- `create_dataset_from_files` (lines 27-168): the run status, the
filesystem actions in program order, and the manifest written on
completion. -/
def create_dataset_from_files (savePath : String) (saveExists overwrite : Bool)
    (reply : String) (cfg : WriterConfig) :
    RunResult × List FsAction × Option CaptureManifest :=
  if saveExists then
    if overwrite then
      if pyConfirm reply then
        (RunResult.completed,
          FsAction.removeTree :: mkdirActions savePath ++ frameActions 0 cfg.sources ++
            [FsAction.writeManifestFile],
          some (writerManifest cfg))
      else (RunResult.exited 1, [], none)
    else (RunResult.exited 1, [], none)
  else
    (RunResult.completed,
      mkdirActions savePath ++ frameActions 0 cfg.sources ++ [FsAction.writeManifestFile],
      some (writerManifest cfg))

/-- One pixel of line 117, `(depth_data * depth_scale).astype(np.uint16)`:
multiply by the scale, truncate, wrap to unsigned 16-bit. -/
def quantizeDepth (d s : ℚ) : ℕ := (⌊d * s⌋).toNat % 65536

/-- Recover the depth in meters from the stored 16-bit value. -/
def dequantizeDepth (q : ℕ) (s : ℚ) : ℚ := (q : ℚ) / s

/-- Three frame records whose numeric stems arrive unsorted in the
manifest. -/
def demoFrames : List FrameRecord :=
  [{ transform_matrix := 1, file_path := "10.png", depth_path := none },
   { transform_matrix := 1, file_path := "2.png", depth_path := none },
   { transform_matrix := 1, file_path := "1.png", depth_path := none }]

/-- A manifest listing `demoFrames` in their unsorted stored order. -/
def demoManifest : CaptureManifest where
  fl_x := 600
  fl_y := 600
  cx := 960
  cy := 540
  w := 1920
  h := 1080
  integer_depth_scale := some 1
  frames := demoFrames

/-- A frame source whose color and depth both exist and whose pose file is
absent. -/
def demoSource : FrameSource where
  colorExists := true
  depthExists := true
  pose := none

/-- A two-frame Writer input whose second color source is missing. -/
def demoSources : List FrameSource :=
  [demoSource, { demoSource with colorExists := false }]

/-- A Writer configuration with depth scale 65535 over `demoSources`. -/
def demoConfig : WriterConfig where
  depth_scale := 65535
  fl_x := 600
  fl_y := 600
  cx := 960
  cy := 540
  width := 1920
  height := 1080
  sources := demoSources

/-- The digit character of `d < 10` has codepoint `48 + d`. -/
theorem toNat_digitChar (d : ℕ) (h : d < 10) : (digitChar d).toNat = 48 + d := by
  unfold digitChar Char.ofNat
  split
  · rfl
  · next hn => exact absurd (Or.inl (by omega)) hn

/-- The decoder recovers the number from its fuelled digit rendering. -/
theorem valRev_toDigitsRev (fuel : ℕ) : ∀ n : ℕ, n < fuel → valRev (toDigitsRev fuel n) = n := by
  induction fuel with
  | zero => intro n h; omega
  | succ fuel ih =>
    intro n h
    unfold toDigitsRev
    split
    · next hlt => simp [valRev, toNat_digitChar n hlt]
    · next hge =>
      push_neg at hge
      have hdiv : n / 10 < fuel := by
        have h1 : n / 10 < n := Nat.div_lt_self (by omega) (by omega)
        omega
      simp [valRev, toNat_digitChar (n % 10) (Nat.mod_lt n (by omega)), ih (n / 10) hdiv]
      omega

/-- Decimal rendering is injective. -/
theorem natRepr_injective : Function.Injective natRepr := by
  intro a b hab
  have h1 : (toDigitsRev (a + 1) a).reverse = (toDigitsRev (b + 1) b).reverse :=
    congrArg String.data hab
  have h2 : toDigitsRev (a + 1) a = toDigitsRev (b + 1) b := by
    simpa using congrArg List.reverse h1
  have h3 := congrArg valRev h2
  rwa [valRev_toDigitsRev _ a (Nat.lt_succ_self a),
    valRev_toDigitsRev _ b (Nat.lt_succ_self b)] at h3

/-- The color asset names of distinct frame indices are distinct. -/
theorem rgbName_injective : Function.Injective rgbName := by
  intro a b hab
  have hd : ("rgb/".data ++ (natRepr a).data) ++ ".png".data =
      ("rgb/".data ++ (natRepr b).data) ++ ".png".data := by
    have h0 := congrArg String.data hab
    simpa [rgbName, String.data_append] using h0
  have h1 := List.append_cancel_left (List.append_cancel_right hd)
  exact natRepr_injective (show String.mk (natRepr a).data = String.mk (natRepr b).data from
    congrArg String.mk h1)

/-- Every record the Writer loop emits comes from a source frame whose color
file exists, and carries that frame's running index in its asset name. -/
theorem mem_buildFrames {fr : FrameRecord} :
    ∀ (srcs : List FrameSource) (k : ℕ), fr ∈ buildFrames k srcs →
      ∃ j, ∃ hj : j < srcs.length, (srcs.get ⟨j, hj⟩).colorExists = true ∧
        fr = mkFrameRecord (k + j) (srcs.get ⟨j, hj⟩) := by
  intro srcs
  induction srcs with
  | nil => intro k h; simp [buildFrames] at h
  | cons src rest ih =>
    intro k h
    by_cases hc : src.colorExists
    · rw [buildFrames, if_pos hc] at h
      rcases List.mem_cons.mp h with h1 | h2
      · exact ⟨0, by simp, by simpa using hc, by simpa using h1⟩
      · rcases ih (k + 1) h2 with ⟨j, hj, hcol, heq⟩
        refine ⟨j + 1, by simpa using Nat.succ_lt_succ hj, by simpa using hcol, ?_⟩
        have : k + 1 + j = k + (j + 1) := by omega
        rw [← this]
        simpa using heq
    · rw [buildFrames, if_neg hc] at h
      rcases ih (k + 1) h with ⟨j, hj, hcol, heq⟩
      refine ⟨j + 1, by simpa using Nat.succ_lt_succ hj, by simpa using hcol, ?_⟩
      have : k + 1 + j = k + (j + 1) := by omega
      rw [← this]
      simpa using heq

/-- The Writer loop never emits more records than it is given frames. -/
theorem length_buildFrames_le : ∀ (srcs : List FrameSource) (k : ℕ),
    (buildFrames k srcs).length ≤ srcs.length := by
  intro srcs
  induction srcs with
  | nil => intro k; simp [buildFrames]
  | cons src rest ih =>
    intro k
    by_cases hc : src.colorExists
    · rw [buildFrames, if_pos hc]
      simpa using Nat.succ_le_succ (ih (k + 1))
    · rw [buildFrames, if_neg hc]
      exact Nat.le_succ_of_le (ih (k + 1))

/-- A skipped frame makes the emitted record list strictly shorter than the
source list. -/
theorem length_buildFrames_lt : ∀ (srcs : List FrameSource) (k i : ℕ) (hi : i < srcs.length),
    (srcs.get ⟨i, hi⟩).colorExists = false → (buildFrames k srcs).length < srcs.length := by
  intro srcs
  induction srcs with
  | nil => intro k i hi; simp at hi
  | cons src rest ih =>
    intro k i hi hmiss
    match i with
    | 0 =>
      have hc : src.colorExists = false := hmiss
      rw [buildFrames, if_neg (by simp [hc])]
      exact Nat.lt_succ_of_le (length_buildFrames_le rest (k + 1))
    | j + 1 =>
      have hj : j < rest.length := by simpa using hi
      have hrec := ih (k + 1) j hj (by simpa using hmiss)
      by_cases hc : src.colorExists
      · rw [buildFrames, if_pos hc]
        simpa using Nat.succ_lt_succ hrec
      · rw [buildFrames, if_neg hc]
        exact Nat.lt_succ_of_lt hrec

/-- The stored poses of the emitted records are exactly the loaded poses (or
the identity fallback) of the kept source frames, unconverted. -/
theorem map_transform_buildFrames : ∀ (srcs : List FrameSource) (k : ℕ),
    (buildFrames k srcs).map (fun fr => fr.transform_matrix) =
      (srcs.filter (fun src => src.colorExists)).map (fun src => src.pose.getD 1) := by
  intro srcs
  induction srcs with
  | nil => intro k; simp [buildFrames]
  | cons src rest ih =>
    intro k
    by_cases hc : src.colorExists <;>
      simp [buildFrames, hc, List.filter_cons, ih, mkFrameRecord]

/-- A key bound in a duplicate-free dict is looked up to its bound value. -/
theorem dictFind_mem_of_nodup : ∀ (l : List (String × ℕ)) (key : String) (v : ℕ),
    (l.map Prod.fst).Nodup → (key, v) ∈ l → dictFind l key = some v := by
  intro l
  induction l with
  | nil => intro key v _ hm; simp at hm
  | cons p rest ih =>
    intro key v hnd hm
    rw [List.map_cons, List.nodup_cons] at hnd
    unfold dictFind
    rw [List.reverse_cons, List.find?_append]
    rcases List.mem_cons.mp hm with heq | hmem
    · have hkey : p.1 = key := by rw [← heq]
      have hknone : rest.reverse.find? (fun q => q.1 == key) = none := by
        rw [List.find?_eq_none]
        intro q hq
        simp only [beq_iff_eq]
        intro hqk
        exact hnd.1 (hkey ▸ hqk ▸ List.mem_map_of_mem Prod.fst (List.mem_reverse.mp hq))
      rw [hknone, Option.none_or]
      have hval : p.2 = v := by rw [← heq]
      simp [List.find?, hkey, hval]
    · have hrest := ih key v hnd.2 hmem
      unfold dictFind at hrest
      rcases hfind : rest.reverse.find? (fun q => q.1 == key) with _ | q
      · rw [hfind] at hrest; simp at hrest
      · rw [hfind] at hrest
        rw [hfind]
        exact hrest

/-- The conversion matrix is symmetric. -/
theorem Pmat_transpose : Pmat.transpose = Pmat := by decide

/-- The conversion matrix is an involution under multiplication. -/
theorem Pmat_mul_Pmat : Pmat * Pmat = 1 := by
  ext i j
  fin_cases i <;> fin_cases j <;>
    simp [Pmat, Matrix.mul_apply, Fin.sum_univ_four, Matrix.one_apply,
      Matrix.vecHead, Matrix.vecTail]

/-- The frame loop only writes image files, never the tree removal. -/
theorem removeTree_not_mem_frameActions : ∀ (srcs : List FrameSource) (k : ℕ),
    FsAction.removeTree ∉ frameActions k srcs := by
  intro srcs
  induction srcs with
  | nil => intro k; simp [frameActions]
  | cons src rest ih =>
    intro k
    by_cases hc : src.colorExists <;> by_cases hd : src.depthExists <;>
      simp [frameActions, hc, hd, ih (k + 1)]

/-- C1: the claim states that the sequences the Reader exposes (color paths,
depth paths, poses) list the frames sorted numerically ascending by integer
file stem regardless of manifest order. On the manifest listing stems
10, 2, 1 the exposed color paths follow the stored manifest order 10, 2, 1,
while the code's own natural-sorted `image_names` gives the claimed canonical
order 1, 2, 10 — the sorted list is never used for the exposed sequences. -/
theorem C1_exposed_order_follows_manifest_order :
    (loadReader "root" demoManifest).color_paths =
      ["root/10.png", "root/2.png", "root/1.png"] ∧
    (loadReader "root" demoManifest).image_names = ["1.png", "2.png", "10.png"] ∧
    (loadReader "root" demoManifest).color_paths ≠
      (loadReader "root" demoManifest).image_names.map (fun s => "root/" ++ s) := by
  decide

/-- C2 counterexample: in the manifest listing stems 10, 2, 1 the FrameIndex
maps "10.png" to 0, its position in the stored frames list, whereas its
position in the numerically sorted canonical sequence is 2. -/
theorem C2_counterexample :
    dictFind (loadReader "root" demoManifest).filepath_index_mapping "10.png" = some 0 ∧
    (loadReader "root" demoManifest).image_names.indexOf "10.png" = 2 ∧
    (0 : ℕ) ≠ 2 := by
  decide

/-- C2 (amended): the FrameIndex built at Reader load time maps each frame's
`file_path` to that frame's integer position in the manifest's stored frames
list (not the numerically sorted sequence), assuming the paths are unique as
the data model requires. -/
theorem C2_index_maps_to_manifest_position (basePath : String) (m : CaptureManifest)
    (hnd : (m.frames.map (fun fr => fr.file_path)).Nodup)
    (i : ℕ) (hi : i < m.frames.length) :
    dictFind (loadReader basePath m).filepath_index_mapping
      ((m.frames.get ⟨i, hi⟩).file_path) = some i := by
  have hmem : ((m.frames.get ⟨i, hi⟩).file_path, i) ∈ create_filepath_index_mapping m.frames := by
    unfold create_filepath_index_mapping
    have henum : (i, m.frames.get ⟨i, hi⟩) ∈ m.frames.enum := by
      rw [List.mem_enum_iff_getElem?]
      simp [List.getElem?_eq_getElem hi]
    simpa using List.mem_map_of_mem (fun p : ℕ × FrameRecord => (p.2.file_path, p.1)) henum
  have hkeys : ((create_filepath_index_mapping m.frames).map Prod.fst).Nodup := by
    unfold create_filepath_index_mapping
    rw [List.map_map]
    have hfun : (Prod.fst ∘ fun p : ℕ × FrameRecord => (p.2.file_path, p.1)) =
        (fun fr => fr.file_path) ∘ Prod.snd := rfl
    rw [hfun, ← List.map_map, List.enum_map_snd]
    exact hnd
  exact dictFind_mem_of_nodup _ _ _ hkeys hmem

/-- Witness for C2: the amended statement evaluated on the demo manifest at
frame position 0. -/
theorem C2_index_witness :
    (demoManifest.frames.map (fun fr => fr.file_path)).Nodup ∧
    dictFind (loadReader "root" demoManifest).filepath_index_mapping
      ((demoManifest.frames.get ⟨0, by decide⟩).file_path) = some 0 :=
  ⟨by decide, C2_index_maps_to_manifest_position "root" demoManifest (by decide) 0 (by decide)⟩

/-- C3: the pose the Reader exposes at each position is `P · C2W · Pᵗ` for
that frame's `transform_matrix`, with `P = diag(1, -1, -1, 1)`; and the
Writer stores each record's `transform_matrix` as the loaded pose (or the
identity fallback) with no conversion applied. -/
theorem C3_pose_conversion (basePath : String) (m : CaptureManifest) (i : ℕ)
    (k : ℕ) (srcs : List FrameSource) :
    (loadReader basePath m).poses[i]? =
      (m.frames[i]?).map (fun fr => Pmat * fr.transform_matrix * Pmat.transpose) ∧
    (buildFrames k srcs).map (fun fr => fr.transform_matrix) =
      (srcs.filter (fun src => src.colorExists)).map (fun src => src.pose.getD 1) := by
  constructor
  · show (m.frames.map (fun fr => convertPose fr.transform_matrix))[i]? = _
    rw [List.getElem?_map]
    rfl
  · exact map_transform_buildFrames srcs k

/-- C4: writing a depth value `d ≥ 0` at scale `s > 0` with `d·s ≤ 65535`
(multiply, truncate to unsigned 16-bit) and reading it back (divide by `s`)
is exact to within one quantization step `1/s`. -/
theorem C4_depth_roundtrip (d s : ℚ) (hd : 0 ≤ d) (hs : 0 < s) (hub : d * s ≤ 65535) :
    |dequantizeDepth (quantizeDepth d s) s - d| ≤ 1 / s := by
  have hds : 0 ≤ d * s := mul_nonneg hd hs.le
  have h0 : (0 : ℤ) ≤ ⌊d * s⌋ := Int.floor_nonneg.mpr hds
  have hle : ⌊d * s⌋ ≤ 65535 := by
    have h65 : ⌊d * s⌋ ≤ ⌊(65535 : ℚ)⌋ := Int.floor_le_floor hub
    simpa using h65
  have hq : quantizeDepth d s = (⌊d * s⌋).toNat := by
    unfold quantizeDepth
    exact Nat.mod_eq_of_lt (by omega)
  have hcast : ((quantizeDepth d s : ℕ) : ℚ) = ((⌊d * s⌋ : ℤ) : ℚ) := by
    rw [hq]
    exact_mod_cast congrArg (fun z : ℤ => (z : ℚ)) (Int.toNat_of_nonneg h0)
  have hfle : ((⌊d * s⌋ : ℤ) : ℚ) ≤ d * s := Int.floor_le (d * s)
  have hflt : d * s - 1 < ((⌊d * s⌋ : ℤ) : ℚ) := by
    have h1 := Int.lt_floor_add_one (d * s)
    linarith
  have hs' : s ≠ 0 := ne_of_gt hs
  have hdeq : dequantizeDepth (quantizeDepth d s) s = ((⌊d * s⌋ : ℤ) : ℚ) / s := by
    unfold dequantizeDepth
    rw [hcast]
  rw [hdeq]
  have hnum : ((⌊d * s⌋ : ℤ) : ℚ) / s - d = (((⌊d * s⌋ : ℤ) : ℚ) - d * s) / s := by
    field_simp
    ring
  rw [hnum, abs_div, abs_of_pos hs]
  have habs : |((⌊d * s⌋ : ℤ) : ℚ) - d * s| ≤ 1 := by
    rw [abs_le]
    constructor <;> linarith
  exact div_le_div_of_nonneg_right habs hs.le

/-- Witness for C4: depth 3/2 and scale 2 round-trip within 1/2. -/
theorem C4_witness :
    (0 : ℚ) ≤ 3 / 2 ∧ (0 : ℚ) < 2 ∧ (3 / 2 : ℚ) * 2 ≤ 65535 ∧
    |dequantizeDepth (quantizeDepth (3 / 2) 2) 2 - 3 / 2| ≤ 1 / 2 :=
  ⟨by norm_num, by norm_num, by norm_num,
    C4_depth_roundtrip (3 / 2) 2 (by norm_num) (by norm_num) (by norm_num)⟩

/-- C5 counterexample: with writer-chosen depth scale 65535 the manifest
records `integer_depth_scale = 1`, and the Reader-derived scale
`1 / integer_depth_scale` is then 1, not the claimed 65535. -/
theorem C5_counterexample :
    (writerManifest demoConfig).integer_depth_scale = some 1 ∧
    (loadReader "root" (writerManifest demoConfig)).png_depth_scale = 1 ∧
    (1 : ℚ) ≠ 65535 := by
  refine ⟨?_, ?_, by norm_num⟩
  · show some ((65535 : ℚ) / 65535) = some 1
    norm_num
  · show 1 / ((65535 : ℚ) / 65535) = 1
    norm_num

/-- C5 (amended): the Writer records `integer_depth_scale = depth_scale /
65535`; the Reader derives the target scale as `1 / integer_depth_scale`
when the field is present and as the legacy default 6553.5 when absent; for
writer-chosen depth scale 65535 the recorded value is 1 and the
Reader-derived scale is 1 (not 65535). -/
theorem C5_depth_scale_fields (cfg : WriterConfig) (basePath : String)
    (m : CaptureManifest) (ids : ℚ) :
    (writerManifest cfg).integer_depth_scale = some (cfg.depth_scale / 65535) ∧
    (loadReader basePath { m with integer_depth_scale := some ids }).png_depth_scale =
      1 / ids ∧
    (loadReader basePath { m with integer_depth_scale := none }).png_depth_scale =
      6553.5 ∧
    (writerManifest { cfg with depth_scale := 65535 }).integer_depth_scale = some 1 ∧
    (loadReader basePath (writerManifest { cfg with depth_scale := 65535 })).png_depth_scale =
      1 := by
  refine ⟨rfl, rfl, rfl, ?_, ?_⟩
  · show some ((65535 : ℚ) / 65535) = some 1
    norm_num
  · show 1 / ((65535 : ℚ) / 65535) = 1
    norm_num

/-- C6: when the color source of frame `i` is missing the Writer skips it and
keeps going: the manifest ends up with strictly fewer than `num_frames`
records and none of them is named `rgb/{i}.png`. -/
theorem C6_skip_missing_color (srcs : List FrameSource) (i : ℕ) (hi : i < srcs.length)
    (hmiss : (srcs.get ⟨i, hi⟩).colorExists = false) :
    (buildFrames 0 srcs).length < srcs.length ∧
    ∀ fr ∈ buildFrames 0 srcs, fr.file_path ≠ rgbName i := by
  refine ⟨length_buildFrames_lt srcs 0 i hi hmiss, ?_⟩
  intro fr hfr heq
  rcases mem_buildFrames srcs 0 hfr with ⟨j, hj, hcol, hrec⟩
  have hname : fr.file_path = rgbName (0 + j) := by rw [hrec]; rfl
  rw [Nat.zero_add] at hname
  have hij : j = i := rgbName_injective (by rw [← hname, heq])
  subst hij
  exact Bool.false_ne_true (hmiss.symm.trans hcol)

/-- Witness for C6: on the two-frame input whose second color source is
missing, the manifest has fewer than two records and none named
`rgb/1.png`. -/
theorem C6_witness :
    (demoSources.get ⟨1, by decide⟩).colorExists = false ∧
    (buildFrames 0 demoSources).length < demoSources.length ∧
    ∀ fr ∈ buildFrames 0 demoSources, fr.file_path ≠ rgbName 1 :=
  ⟨by decide, C6_skip_missing_color demoSources 1 (by decide) (by decide)⟩

/-- C7: the Reader's resolved depth path at each position is the capture root
plus `depth_path` when present, else the root plus `file_path` with the
substring `"rgb"` literally replaced by `"depth"` across the whole string —
so `"data/rgb_5.png"` becomes `"data/depth_5.png"`. -/
theorem C7_depth_path_resolution (basePath : String) (m : CaptureManifest) (i : ℕ) :
    (loadReader basePath m).depth_paths[i]? =
      (m.frames[i]?).map (fun fr =>
        match fr.depth_path with
        | some dp => basePath ++ "/" ++ dp
        | none => basePath ++ "/" ++ pyReplace fr.file_path "rgb" "depth") ∧
    pyReplace "data/rgb_5.png" "rgb" "depth" = "data/depth_5.png" := by
  constructor
  · show (m.frames.map (frameDepthPath basePath))[i]? = _
    rw [List.getElem?_map]
    rfl
  · decide

/-- C8: applying the Reader's coordinate conversion `M ↦ P · M · Pᵗ` twice
returns the original matrix, exactly, for every 4 × 4 matrix. -/
theorem C8_conversion_involution (M : Mat4) : convertPose (convertPose M) = M := by
  unfold convertPose
  rw [Pmat_transpose]
  calc Pmat * (Pmat * M * Pmat) * Pmat = Pmat * Pmat * M * (Pmat * Pmat) := by
        noncomm_ring
    _ = M := by rw [Pmat_mul_Pmat]; simp

/-- C9: when the save path exists and consent is absent — the overwrite flag
is false, or the prompt reply does not confirm — the run exits with status 1
having performed no filesystem action and written no manifest; and the tree
removal can only ever appear after an existing path, a true overwrite flag
and a confirming reply. -/
theorem C9_no_consent_aborts_untouched (savePath : String) (saveExists overwrite : Bool)
    (reply : String) (cfg : WriterConfig)
    (hex : saveExists = true)
    (hno : overwrite = false ∨ pyConfirm reply = false) :
    create_dataset_from_files savePath saveExists overwrite reply cfg =
      (RunResult.exited 1, [], none) ∧
    ∀ (se ow : Bool) (r : String),
      FsAction.removeTree ∈ (create_dataset_from_files savePath se ow r cfg).2.1 →
        se = true ∧ ow = true ∧ pyConfirm r = true := by
  subst hex
  constructor
  · rcases hno with h | h
    · subst h
      simp [create_dataset_from_files]
    · simp [create_dataset_from_files, h]
  · intro se ow r hmem
    have hnotrest : FsAction.removeTree ∉
        mkdirActions savePath ++ frameActions 0 cfg.sources ++ [FsAction.writeManifestFile] := by
      intro hmm
      rcases List.mem_append.mp hmm with hmm1 | hmm2
      · rcases List.mem_append.mp hmm1 with hmm3 | hmm4
        · simp [mkdirActions] at hmm3
        · exact removeTree_not_mem_frameActions cfg.sources 0 hmm4
      · simp at hmm2
    cases se
    · rw [create_dataset_from_files] at hmem
      simp only [Bool.false_eq_true, if_false] at hmem
      exact absurd hmem hnotrest
    · cases ow
      · rw [create_dataset_from_files] at hmem
        simp only [if_true, Bool.false_eq_true, if_false] at hmem
        simp at hmem
      · by_cases hc : pyConfirm r
        · exact ⟨rfl, rfl, hc⟩
        · rw [create_dataset_from_files] at hmem
          simp only [if_true, hc, Bool.false_eq_true, if_false] at hmem
          simp at hmem

/-- Witness for C9: an existing save path with the overwrite flag false exits
with status 1 and an empty action trace. -/
theorem C9_witness :
    ((false = false) ∨ pyConfirm "" = false) ∧
    create_dataset_from_files "out" true false "" demoConfig =
      (RunResult.exited 1, [], none) :=
  ⟨Or.inl rfl,
    (C9_no_consent_aborts_untouched "out" true false "" demoConfig rfl (Or.inl rfl)).1⟩

/-- C10: at the interactive overwrite prompt the reply confirms iff, after
lowercasing and stripping whitespace, it is empty or starts with `y`; a
confirming reply removes the existing tree first and the run proceeds to
completion, any other reply exits with status 1 and touches nothing. -/
theorem C10_prompt_confirmation (reply savePath : String) (cfg : WriterConfig) :
    (pyConfirm reply = true ↔
      (pyStrip (pyLower reply)).data = [] ∨
        ∃ cs, (pyStrip (pyLower reply)).data = 'y' :: cs) ∧
    (pyConfirm reply = true →
      create_dataset_from_files savePath true true reply cfg =
        (RunResult.completed,
          FsAction.removeTree :: mkdirActions savePath ++ frameActions 0 cfg.sources ++
            [FsAction.writeManifestFile],
          some (writerManifest cfg))) ∧
    (pyConfirm reply = false →
      create_dataset_from_files savePath true true reply cfg =
        (RunResult.exited 1, [], none)) := by
  refine ⟨?_, ?_, ?_⟩
  · unfold pyConfirm
    rcases hdata : (pyStrip (pyLower reply)).data with _ | ⟨c, cs⟩
    · simp
    · simp [List.take]
  · intro h
    simp [create_dataset_from_files, h]
  · intro h
    simp [create_dataset_from_files, h]

/-- Witness for C10: the reply " YES " confirms and removes the tree, the
reply "no" declines and exits with status 1. -/
theorem C10_witness :
    create_dataset_from_files "out" true true " YES " demoConfig =
      (RunResult.completed,
        FsAction.removeTree :: mkdirActions "out" ++ frameActions 0 demoConfig.sources ++
          [FsAction.writeManifestFile],
        some (writerManifest demoConfig)) ∧
    create_dataset_from_files "out" true true "no" demoConfig =
      (RunResult.exited 1, [], none) :=
  ⟨(C10_prompt_confirmation " YES " "out" demoConfig).2.1 (by decide),
    (C10_prompt_confirmation "no" "out" demoConfig).2.2 (by decide)⟩
